import Mathlib

/-
  A verification model of the sandboxed filesystem gateway implemented in
  `src/filesystem_handler.py` (class `FilesystemHandler` together with the
  module-level dispatcher `handle_function_call`).

  Modelling conventions:
  * Python strings are Lean `String`s; `len` on a Python `str` is `String.length`.
  * `os.path.abspath` / `posixpath.normpath` / `posixpath.join` are translated
    character-for-character from CPython's `posixpath.py` (POSIX semantics,
    which is what the path containment logic of the handler relies on).
  * The on-disk state is a finite association list from raw paths (lists of
    path segments, symlink-free addressing) to entries (regular file with its
    text content, directory, or symbolic link with an absolute target).
    Path resolution follows symbolic links with an explicit fuel bound; fuel
    exhaustion models the kernel's ELOOP failure.  All recursions are
    structural so that every definition evaluates inside the kernel.
  * Every gateway operation returns the Python result dict (modelled as a
    structure whose absent keys are `none`) together with the post-state of
    the filesystem; exceptions caught by the handler's `except` blocks are
    modelled as error results, and the texts of OS-generated messages (which
    the source merely interpolates via `str(e)`) are modelled by fixed
    stand-in strings.  The access-denied message is built by the source
    itself and is modelled exactly.
-/

set_option maxRecDepth 20000

/-- Model of Python `str.split('/')`: split a character list on `'/'`,
keeping empty fields, accumulating the current field in reverse. -/
def splitChars : List Char → List Char → List String
  | acc, [] => [String.mk acc.reverse]
  | acc, c :: cs =>
    if c == '/' then String.mk acc.reverse :: splitChars [] cs
    else splitChars (c :: acc) cs

/-- `s.split('/')` on a Lean string. -/
def splitSlash (s : String) : List String := splitChars [] s.data

/-- `listPre p s` is true when the character list `p` is an initial run of `s`;
this is Python's `str.startswith` at the character level. -/
def listPre : List Char → List Char → Bool
  | [], _ => true
  | _ :: _, [] => false
  | a :: as, b :: bs => a == b && listPre as bs

/-- Python `s.startswith(pre)`. -/
def startsWithM (s pre : String) : Bool := listPre pre.data s.data

/-- True when the string begins with `'/'` (Python `posixpath.isabs`). -/
def headIsSlash (s : String) : Bool :=
  match s.data with
  | c :: _ => c == '/'
  | [] => false

/-- True when the first character is `'.'` (glob's `_ishidden`). -/
def strHidden (s : String) : Bool :=
  match s.data with
  | c :: _ => c == '.'
  | [] => false

/-- Number of leading slashes retained by `posixpath.normpath`: `2` for a
path starting with exactly two slashes, otherwise `1` for an absolute path
and `0` for a relative one. -/
def slashCount (s : String) : Nat :=
  match s.data with
  | '/' :: '/' :: '/' :: _ => 1
  | '/' :: '/' :: _ => 2
  | '/' :: _ => 1
  | _ => 0

/-- The component loop of `posixpath.normpath`: drop `''`/`'.'`, fold `'..'`
against the accumulated components (kept reversed). -/
def normLoop (hasRoot : Bool) : List String → List String → List String
  | acc, [] => acc.reverse
  | acc, c :: rest =>
    if c == "" || c == "." then normLoop hasRoot acc rest
    else if c != ".." || (!hasRoot && acc.isEmpty) ||
        (match acc with | a :: _ => a == ".." | [] => false) then
      normLoop hasRoot (c :: acc) rest
    else
      match acc with
      | _ :: acc' => normLoop hasRoot acc' rest
      | [] => normLoop hasRoot acc rest

/-- Join path segments with `'/'`. -/
def joinSegs : List String → String
  | [] => ""
  | [s] => s
  | s :: rest => s ++ "/" ++ joinSegs rest

/-- Model of `posixpath.normpath`. -/
def normpath (p : String) : String :=
  if p == "" then "." else
  let ns := slashCount p
  let comps := normLoop (ns != 0) [] (splitSlash p)
  let res := String.mk (List.replicate ns '/') ++ joinSegs comps
  if res == "" then "." else res

/-- Model of `posixpath.join` for two arguments. -/
def joinPath (a b : String) : String :=
  if headIsSlash b then b
  else if a == "" || (match a.data.getLast? with | some c => c == '/' | none => false) then a ++ b
  else a ++ "/" ++ b

/-- Model of `os.path.abspath` with an explicit current working directory. -/
def absPath (cwd p : String) : String :=
  if headIsSlash p then normpath p else normpath (joinPath cwd p)

/-- The list of non-empty segments of a path string; for the normalized
absolute strings produced by `absPath` this is exact. -/
def strSegs (s : String) : List String :=
  (splitSlash s).filter (fun c => !(c == ""))

/-- Render a raw absolute path back to a string (`"/" ++ segments`). -/
def segsToStr (segs : List String) : String := "/" ++ joinSegs segs

/-- `os.path.basename` on a normalized absolute path. -/
def baseNameOf (s : String) : String := (strSegs s).getLastD ""

/-- The extension part of `os.path.splitext` applied to a basename: text from
the final `'.'`, provided some earlier character of the name is not a dot. -/
def extOf (name : String) : String :=
  let rev := name.data.reverse
  let afterRev := rev.takeWhile (fun c => !(c == '.'))
  if afterRev.length == rev.length then ""
  else
    let beforeLen := rev.length - afterRev.length - 1
    if (name.data.take beforeLen).any (fun c => !(c == '.')) then
      String.mk ('.' :: afterRev.reverse)
    else ""

/-- The default allow-list wired into `FilesystemHandler.__init__`. -/
def defaultAllowedDirs : List String :=
  ["/Users/admin/Documents/Qwen_Coder_Local",
   "/Users/admin/Documents/test_workspace",
   "/Users/admin/Desktop/qwen_workspace"]

/-- The handler state: `self.allowed_directories` after `__init__` has
normalized every entry with `os.path.abspath`. -/
structure Handler where
  allowed_directories : List String
deriving DecidableEq, Repr

/-- `__init__`'s computation of `self.allowed_directories`: take the supplied
list (or the defaults when `None`) and map `os.path.abspath` over it. -/
def initDirs (cwd : String) (dirs : Option (List String)) : List String :=
  (dirs.getD defaultAllowedDirs).map (fun p => absPath cwd p)

/-- `FilesystemHandler._is_path_allowed`: `any(abs_path.startswith(d) for d
in self.allowed_directories)`. -/
def is_path_allowed (cwd : String) (h : Handler) (path : String) : Bool :=
  h.allowed_directories.any (fun d => startsWithM (absPath cwd path) d)

/-- The result the handler returns when `_validate_path` raises
`PermissionError` and the surrounding `except` block stringifies it. -/
def accessDeniedMsg (p : String) : String :=
  "Access denied: Path \x27" ++ p ++ "\x27 is outside allowed directories"

/-- Spec-side definition (written from the specification's words, for
comparison with the code): containment succeeds iff the canonicalized
candidate has some canonicalized root as a plain string prefix. -/
def specPrefixContained (cwd : String) (roots : List String) (c : String) : Bool :=
  roots.any (fun r => startsWithM (absPath cwd c) (absPath cwd r))

/-- Spec-side definition (written from the specification's words): the
canonicalized candidate equals a canonicalized root or extends it at a path
segment boundary (so root `/a/bb` does not cover candidate `/a/bbb`). -/
def specSegmentContained (cwd : String) (roots : List String) (c : String) : Bool :=
  roots.any (fun r =>
    absPath cwd c == absPath cwd r ||
    startsWithM (absPath cwd c) (absPath cwd r ++ "/"))

theorem listPre_refl : ∀ l : List Char, listPre l l = true := by
  intro l
  induction l with
  | nil => rfl
  | cons a as ih => simp [listPre, ih]

theorem listPre_of_append : ∀ a b s : List Char,
    listPre (a ++ b) s = true → listPre a s = true := by
  intro a
  induction a with
  | nil => intro b s _; rfl
  | cons c cs ih =>
    intro b s h
    cases s with
    | nil => simp [listPre] at h
    | cons d ds =>
      simp only [List.cons_append, listPre, Bool.and_eq_true] at h ⊢
      exact ⟨h.1, ih b ds h.2⟩

/-- C1 (counterexample): with allowed root `/a/bb`, the candidate `/a/bbb`
passes `_is_path_allowed` even though it is not the root nor a
segment-boundary descendant of it, so the claimed "iff" is false on the
code. -/
theorem c1_counterexample :
    is_path_allowed "/" ⟨initDirs "/" (some ["/a/bb"])⟩ "/a/bbb" = true ∧
    specSegmentContained "/" ["/a/bb"] "/a/bbb" = false := by
  constructor
  · decide
  · decide

/-- C1 (amended): validation succeeds iff the canonicalized candidate has
some canonicalized allowed root as a plain string prefix (the code's
`startswith` check); every root or segment-boundary descendant of a root is
accepted, but the comparison is not segment-boundary aware, so with root
`/a/bb` the candidate `/a/bbb` is also accepted. -/
theorem c1_prefix_containment (cwd : String) (roots : List String) (c : String) :
    is_path_allowed cwd ⟨initDirs cwd (some roots)⟩ c = specPrefixContained cwd roots c ∧
    (specSegmentContained cwd roots c = true →
      is_path_allowed cwd ⟨initDirs cwd (some roots)⟩ c = true) := by
  constructor
  · simp [is_path_allowed, initDirs, specPrefixContained, List.any_map, Function.comp_def]
  · intro hseg
    simp only [specSegmentContained, List.any_eq_true, Bool.or_eq_true] at hseg
    obtain ⟨r, hr, hcase⟩ := hseg
    simp only [is_path_allowed, initDirs, Option.getD, List.any_map, List.any_eq_true,
      Function.comp]
    refine ⟨r, hr, ?_⟩
    rcases hcase with heq | hpre
    · have : absPath cwd c = absPath cwd r := by
        exact eq_of_beq heq
      simp [startsWithM, this, listPre_refl]
    · unfold startsWithM at hpre ⊢
      have hdata : (absPath cwd r ++ "/").data = (absPath cwd r).data ++ ['/'] := by
        simp [String.data_append]
      rw [hdata] at hpre
      exact listPre_of_append _ _ _ hpre

/-- C1 witness: the amended theorem applied at root `/a` and segment-boundary
descendant `/a/x`. -/
theorem c1_prefix_containment_witness :
    is_path_allowed "/" ⟨initDirs "/" (some ["/a"])⟩ "/a/x" = true :=
  (c1_prefix_containment "/" ["/a"] "/a/x").2 (by decide)

/-- An entry of the modelled filesystem: a regular file with its text
content, a directory, or a symbolic link with an absolute target path. -/
inductive Entry where
  | file (content : String)
  | dirE
  | symlinkE (target : String)
deriving DecidableEq, Repr

/-- A raw path: the chain of directory-entry names from the root, with no
symbolic-link components (the address of an object on disk). -/
abbrev RawPath := List String

/-- The filesystem: an association list from raw paths to entries.  Later
bindings shadow earlier ones. -/
abbrev FS := List (RawPath × Entry)

/-- Look up the entry stored at a raw path. -/
def fsGet (fs : FS) (k : RawPath) : Option Entry :=
  (fs.find? (fun e => e.1 == k)).map (fun e => e.2)

/-- Store an entry at a raw path (shadowing any previous binding). -/
def fsSet (fs : FS) (k : RawPath) (v : Entry) : FS := (k, v) :: fs

/-- Drop every binding of exactly the raw path `k`. -/
def fsErase (fs : FS) (k : RawPath) : FS := fs.filter (fun e => !(e.1 == k))

/-- `keyUnder k q`: the raw path `q` is `k` itself or lies below it. -/
def keyUnder (k q : RawPath) : Bool := q.take k.length == k

/-- Drop the whole subtree rooted at raw path `k` (the effect of
`shutil.rmtree`). -/
def fsRemoveTree (fs : FS) (k : RawPath) : FS :=
  fs.filter (fun e => !(keyUnder k e.1))

/-- The entry at a raw path, treating the empty path as the always-present
root directory. -/
def entryAt (fs : FS) (k : RawPath) : Option Entry :=
  if k.isEmpty then some Entry.dirE else fsGet fs k

/-- Fuel supplied to path resolution: enough for any path with this many
segments over this filesystem unless symbolic links chain or loop past the
kernel's lookup budget (resolution then fails like ELOOP). -/
def opFuel (fs : FS) (segs : RawPath) : Nat := segs.length + 40 * fs.length + 41

/-- Resolve a textual path (the segments `segs`, relative to the resolved
raw path `acc`) to the raw path it denotes, following symbolic links; one
unit of fuel is consumed per step.  Returns the remaining fuel with the raw
path.  Intermediate components must be directories (ENOTDIR otherwise); a
final symbolic link is followed, so this is `stat` semantics. -/
def resolveSegsF (fs : FS) : Nat → RawPath → RawPath → Option (Nat × RawPath)
  | fuel, acc, [] => some (fuel, acc)
  | 0, _, _ :: _ => none
  | fuel + 1, acc, s :: rest =>
    match fsGet fs (acc ++ [s]) with
    | none => none
    | some (Entry.file _) =>
      match rest with
      | [] => some (fuel, acc ++ [s])
      | _ :: _ => none
    | some Entry.dirE => resolveSegsF fs fuel (acc ++ [s]) rest
    | some (Entry.symlinkE t) => resolveSegsF fs fuel [] (strSegs t ++ rest)

/-- The raw path a textual path resolves to (`os.path.realpath` on existing
paths). -/
def realOf (fs : FS) (segs : RawPath) : Option RawPath :=
  (resolveSegsF fs (opFuel fs segs) [] segs).map (fun r => r.2)

/-- The entry a textual path denotes after following symbolic links
(`os.stat`); `none` when the path does not exist. -/
def statSegs (fs : FS) (segs : RawPath) : Option Entry :=
  (resolveSegsF fs (opFuel fs segs) [] segs).bind (fun r => entryAt fs r.2)

/-- `os.path.exists` (follows symbolic links, false on broken links). -/
def existsSegs (fs : FS) (segs : RawPath) : Bool := (statSegs fs segs).isSome

/-- `os.path.isfile`. -/
def isfileSegs (fs : FS) (segs : RawPath) : Bool :=
  match statSegs fs segs with
  | some (Entry.file _) => true
  | _ => false

/-- `os.path.isdir`. -/
def isdirSegs (fs : FS) (segs : RawPath) : Bool :=
  match statSegs fs segs with
  | some Entry.dirE => true
  | _ => false

/-- The names listed by `os.listdir` at a textual path: the final names of
the raw paths one level below the directory the path resolves to. -/
def childNames (fs : FS) (t : RawPath) : List String :=
  match realOf fs t with
  | none => []
  | some rt =>
    if entryAt fs rt == some Entry.dirE then
      (fs.filter (fun e => e.1.length == rt.length + 1 && e.1.take rt.length == rt)).map
        (fun e => e.1.getLastD "")
    else []

/-- Model of `os.makedirs(..., exist_ok=True)`: walk the textual path from
`acc`, following symbolic links, descending existing directories, creating
missing ones, and failing on a regular file in the chain.  Fuel as in
`resolveSegsF` (stepping in lockstep with it). -/
def makedirsGo : Nat → FS → RawPath → RawPath → FS × Bool
  | _, fs, _, [] => (fs, true)
  | 0, fs, _, _ :: _ => (fs, false)
  | fuel + 1, fs, acc, s :: rest =>
    match fsGet fs (acc ++ [s]) with
    | some Entry.dirE => makedirsGo fuel fs (acc ++ [s]) rest
    | some (Entry.file _) => (fs, false)
    | some (Entry.symlinkE t) => makedirsGo fuel fs [] (strSegs t ++ rest)
    | none => makedirsGo fuel (fsSet fs (acc ++ [s]) Entry.dirE) (acc ++ [s]) rest

/-- `os.makedirs(path, exist_ok=True)` from the root. -/
def makedirsSegs (fs : FS) (segs : RawPath) : FS × Bool :=
  makedirsGo (opFuel fs segs) fs [] segs

/-- The raw path `open(path, 'w')` writes to: the resolved raw path when the
textual path resolves to an existing regular file, and `rawParent ++ [name]`
when it does not yet exist but its parent resolves to a directory; `none`
models the OSErrors of the remaining cases (target is a directory, parent
missing, broken final link — the last modelled as a failure). -/
def writeTarget (fs : FS) (segs : RawPath) : Option RawPath :=
  match segs.getLast? with
  | none => none
  | some n =>
    match resolveSegsF fs (opFuel fs segs) [] segs with
    | some r =>
      match entryAt fs r.2 with
      | some (Entry.file _) => some r.2
      | _ => none
    | none =>
      match resolveSegsF fs (opFuel fs segs) [] segs.dropLast with
      | some pr =>
        if entryAt fs pr.2 == some Entry.dirE then
          match fsGet fs (pr.2 ++ [n]) with
          | none => some (pr.2 ++ [n])
          | _ => none
        else none
      | none => none

/-- The raw path a textual path denotes without following a final symbolic
link (`os.lstat` addressing): the resolved parent plus the final name. -/
def lstatKey (fs : FS) (segs : RawPath) : Option RawPath :=
  match segs.getLast?, resolveSegsF fs (opFuel fs segs) [] segs.dropLast with
  | some n, some pr => some (pr.2 ++ [n])
  | _, _ => none

/-- `shutil.rmtree`: refuses a symbolic link, otherwise removes the subtree
at the path's raw location. -/
def rmtreeM (fs : FS) (segs : RawPath) : FS × Bool :=
  match lstatKey fs segs with
  | some k =>
    match fsGet fs k with
    | some Entry.dirE => (fsRemoveTree fs k, true)
    | _ => (fs, false)
  | none => (fs, false)

/-- Re-root every binding below `srcK` to the corresponding raw path below
`dstK` (the effect of `shutil.move` to a fresh destination). -/
def moveTree (fs : FS) (srcK dstK : RawPath) : FS :=
  fs.map (fun e =>
    if keyUnder srcK e.1 then (dstK ++ e.1.drop srcK.length, e.2) else e)

/-- Fuel-bounded matcher for glob name patterns with `*` and `?` wildcards
(the fragment of `fnmatch` the handler's patterns use; bracket classes are
not modelled).  Fuel makes the recursion structural. -/
def globMatchF : Nat → List Char → List Char → Bool
  | 0, _, _ => false
  | fuel + 1, pat, s =>
    match pat, s with
    | [], [] => true
    | [], _ :: _ => false
    | p :: ps, [] => p == '*' && globMatchF fuel ps []
    | p :: ps, c :: cs =>
      if p == '*' then globMatchF fuel ps (c :: cs) || globMatchF fuel (p :: ps) cs
      else (p == '?' || p == c) && globMatchF fuel ps cs

/-- Glob name matching with adequate fuel. -/
def globMatch (pat s : List Char) : Bool :=
  globMatchF (pat.length + s.length + 1) pat s

/-- The names inside the directory at textual path `d` that the glob
component `pat` matches; as in the glob module, a pattern that does not
itself start with a dot never matches hidden names. -/
def matchNames (fs : FS) (d : RawPath) (pat : String) : List String :=
  let names := childNames fs d
  let names2 := if strHidden pat then names else names.filter (fun n => !(strHidden n))
  names2.filter (fun n => globMatch pat.data n.data)

/-- The textual directory paths visited by the `**` component of a recursive
glob: the root and, recursively, every non-hidden child that is a directory
after following symbolic links (glob recurses through links to
directories).  `fuel` bounds the recursion depth. -/
def globDirs (fs : FS) : Nat → RawPath → List RawPath
  | 0, t => [t]
  | fuel + 1, t =>
    t :: ((childNames fs t).filter (fun n => !(strHidden n))).flatMap
      (fun n => if isdirSegs fs (t ++ [n]) then globDirs fs fuel (t ++ [n]) else [])

/-- The textual paths produced by `glob.glob(join(root, "**", pat),
recursive=True)`: a final name matching `pat` in any directory the `**`
walk reaches. -/
def globRec (fs : FS) (fuel : Nat) (root : RawPath) (pat : String) : List RawPath :=
  (globDirs fs fuel root).flatMap (fun d => (matchNames fs d pat).map (fun n => d ++ [n]))

/-- A `{path, name, type}` element of `list_directory` items and
`search_files` matches. -/
structure ItemInfo where
  path : String
  name : String
  type : String
deriving DecidableEq, Repr

/-- The result dictionary a handler operation returns.  Keys the operation
does not put in its dict are `none`. -/
structure PyResult where
  success : Bool
  error : Option String := none
  content : Option String := none
  message : Option String := none
  file_path : Option String := none
  directory_path : Option String := none
  search_path : Option String := none
  source_path : Option String := none
  destination_path : Option String := none
  path : Option String := none
  name : Option String := none
  type : Option String := none
  extension : Option String := none
  pattern : Option String := none
  size : Option Nat := none
  count : Option Nat := none
  items : Option (List ItemInfo) := none
  «matches» : Option (List ItemInfo) := none
  allowed_directories : Option (List String) := none
deriving DecidableEq, Repr

/-- The access-denied result every operation returns when `_validate_path`
raises and the `except` block stringifies the `PermissionError`. -/
def accessDenied (p : String) : PyResult :=
  { success := false, error := some (accessDeniedMsg p) }

/-- `FilesystemHandler.read_file`. -/
def read_file (cwd : String) (h : Handler) (fs : FS) (file_path : String) :
    PyResult × FS :=
  if is_path_allowed cwd h file_path then
    let segs := strSegs (absPath cwd file_path)
    match statSegs fs segs with
    | none => ({ success := false, error := some ("File not found: " ++ file_path) }, fs)
    | some (Entry.file c) =>
      ({ success := true, content := some c, file_path := some file_path,
         size := some c.length }, fs)
    | some _ =>
      ({ success := false, error := some ("Path is not a file: " ++ file_path) }, fs)
  else (accessDenied file_path, fs)

/-- `FilesystemHandler.write_file`.  The texts of the wrapped OSErrors
(`str(e)` of a makedirs or open failure) are modelled by stand-in strings. -/
def write_file (cwd : String) (h : Handler) (fs : FS) (file_path content : String) :
    PyResult × FS :=
  if is_path_allowed cwd h file_path then
    let segs := strSegs (absPath cwd file_path)
    match makedirsSegs fs segs.dropLast with
    | (fs1, false) =>
      ({ success := false, error := some ("File exists: " ++ file_path) }, fs1)
    | (fs1, true) =>
      match writeTarget fs1 segs with
      | none =>
        ({ success := false, error := some ("Is a directory: " ++ file_path) }, fs1)
      | some tgt =>
        ({ success := true, message := some ("File written successfully: " ++ file_path),
           file_path := some file_path, size := some content.length },
         fsSet fs1 tgt (Entry.file content))
  else (accessDenied file_path, fs)

/-- `FilesystemHandler.append_to_file`. -/
def append_to_file (cwd : String) (h : Handler) (fs : FS) (file_path content : String) :
    PyResult × FS :=
  if is_path_allowed cwd h file_path then
    let segs := strSegs (absPath cwd file_path)
    match makedirsSegs fs segs.dropLast with
    | (fs1, false) =>
      ({ success := false, error := some ("File exists: " ++ file_path) }, fs1)
    | (fs1, true) =>
      match writeTarget fs1 segs with
      | none =>
        ({ success := false, error := some ("Is a directory: " ++ file_path) }, fs1)
      | some tgt =>
        let newC := match fsGet fs1 tgt with
          | some (Entry.file old) => old ++ content
          | _ => content
        ({ success := true,
           message := some ("Content appended successfully: " ++ file_path),
           file_path := some file_path }, fsSet fs1 tgt (Entry.file newC))
  else (accessDenied file_path, fs)

/-- `FilesystemHandler.list_directory`. -/
def list_directory (cwd : String) (h : Handler) (fs : FS) (directory_path : String)
    (include_hidden : Bool) : PyResult × FS :=
  if is_path_allowed cwd h directory_path then
    let segs := strSegs (absPath cwd directory_path)
    match statSegs fs segs with
    | none =>
      ({ success := false, error := some ("Directory not found: " ++ directory_path) }, fs)
    | some Entry.dirE =>
      let names := childNames fs segs
      let names2 := if include_hidden then names
        else names.filter (fun n => !(strHidden n))
      let its := names2.map (fun n =>
        { name := n,
          type := if isdirSegs fs (segs ++ [n]) then "directory" else "file",
          path := segsToStr (segs ++ [n]) : ItemInfo })
      ({ success := true, directory_path := some directory_path, items := some its,
         count := some its.length }, fs)
    | some _ =>
      ({ success := false,
         error := some ("Path is not a directory: " ++ directory_path) }, fs)
  else (accessDenied directory_path, fs)

/-- `FilesystemHandler.create_directory`. -/
def create_directory (cwd : String) (h : Handler) (fs : FS) (directory_path : String) :
    PyResult × FS :=
  if is_path_allowed cwd h directory_path then
    match makedirsSegs fs (strSegs (absPath cwd directory_path)) with
    | (fs1, true) =>
      ({ success := true,
         message := some ("Directory created successfully: " ++ directory_path),
         directory_path := some directory_path }, fs1)
    | (fs1, false) =>
      ({ success := false, error := some ("File exists: " ++ directory_path) }, fs1)
  else (accessDenied directory_path, fs)

/-- `FilesystemHandler.delete_file`. -/
def delete_file (cwd : String) (h : Handler) (fs : FS) (file_path : String) :
    PyResult × FS :=
  if is_path_allowed cwd h file_path then
    let segs := strSegs (absPath cwd file_path)
    match statSegs fs segs with
    | none => ({ success := false, error := some ("File not found: " ++ file_path) }, fs)
    | some (Entry.file _) =>
      match lstatKey fs segs with
      | some k =>
        ({ success := true, message := some ("File deleted successfully: " ++ file_path),
           file_path := some file_path }, fsErase fs k)
      | none =>
        ({ success := false, error := some ("remove failed: " ++ file_path) }, fs)
    | some _ =>
      ({ success := false, error := some ("Path is not a file: " ++ file_path) }, fs)
  else (accessDenied file_path, fs)

/-- `FilesystemHandler.delete_directory`. -/
def delete_directory (cwd : String) (h : Handler) (fs : FS) (directory_path : String)
    (force : Bool) : PyResult × FS :=
  if is_path_allowed cwd h directory_path then
    let segs := strSegs (absPath cwd directory_path)
    match statSegs fs segs with
    | none =>
      ({ success := false, error := some ("Directory not found: " ++ directory_path) }, fs)
    | some Entry.dirE =>
      if !force && !(childNames fs segs).isEmpty then
        ({ success := false,
           error := some ("Directory not empty: " ++ directory_path ++
             ". Use force=True to delete.") }, fs)
      else
        match rmtreeM fs segs with
        | (fs2, true) =>
          ({ success := true,
             message := some ("Directory deleted successfully: " ++ directory_path),
             directory_path := some directory_path }, fs2)
        | (fs2, false) =>
          ({ success := false, error := some ("rmtree failed: " ++ directory_path) }, fs2)
    | some _ =>
      ({ success := false,
         error := some ("Path is not a directory: " ++ directory_path) }, fs)
  else (accessDenied directory_path, fs)

/-- `FilesystemHandler.search_files`: validate the root, glob (recursively
through `**` by default), filter every raw glob hit through
`_is_path_allowed`, and report the survivors. -/
def search_files (cwd : String) (h : Handler) (fs : FS) (search_path pat : String)
    (recursive : Bool) : PyResult × FS :=
  if is_path_allowed cwd h search_path then
    let segs := strSegs (absPath cwd search_path)
    match statSegs fs segs with
    | none =>
      ({ success := false, error := some ("Search path not found: " ++ search_path) }, fs)
    | some Entry.dirE =>
      let raw : List RawPath :=
        if recursive then globRec fs (fs.length + 1) segs pat
        else (matchNames fs segs pat).map (fun n => segs ++ [n])
      let allowed_matches := (raw.map segsToStr).filter (fun m => is_path_allowed cwd h m)
      let results := allowed_matches.map (fun m =>
        { path := m, name := baseNameOf m,
          type := if isdirSegs fs (strSegs m) then "directory" else "file" : ItemInfo })
      ({ success := true, search_path := some search_path, pattern := some pat,
         «matches» := some results, count := some results.length }, fs)
    | some _ =>
      ({ success := false,
         error := some ("Search path is not a directory: " ++ search_path) }, fs)
  else (accessDenied search_path, fs)

/-- `FilesystemHandler.get_file_info`.  The time and permission fields of
the stat result depend on the environment and are not modelled; a
directory's `st_size` is modelled as 0. -/
def get_file_info (cwd : String) (h : Handler) (fs : FS) (path : String) :
    PyResult × FS :=
  if is_path_allowed cwd h path then
    let segs := strSegs (absPath cwd path)
    match statSegs fs segs with
    | none => ({ success := false, error := some ("Path not found: " ++ path) }, fs)
    | some (Entry.file c) =>
      let nm := segs.getLastD ""
      ({ success := true, path := some path, name := some nm, type := some "file",
         size := some c.length, extension := some (extOf nm) }, fs)
    | some _ =>
      let nm := segs.getLastD ""
      ({ success := true, path := some path, name := some nm, type := some "directory",
         size := some 0 }, fs)
  else (accessDenied path, fs)

/-- `FilesystemHandler.move_file`. -/
def move_file (cwd : String) (h : Handler) (fs : FS)
    (source_path destination_path : String) : PyResult × FS :=
  if is_path_allowed cwd h source_path then
    if is_path_allowed cwd h destination_path then
      let vs := strSegs (absPath cwd source_path)
      let vd := strSegs (absPath cwd destination_path)
      if existsSegs fs vs then
        if existsSegs fs vd then
          ({ success := false,
             error := some ("Destination already exists: " ++ destination_path) }, fs)
        else
          match makedirsSegs fs vd.dropLast with
          | (fs1, false) =>
            ({ success := false, error := some ("File exists: " ++ destination_path) }, fs1)
          | (fs1, true) =>
            match lstatKey fs1 vs, lstatKey fs1 vd with
            | some sk, some dk =>
              ({ success := true,
                 message := some ("File moved successfully: " ++ source_path ++
                   " -> " ++ destination_path),
                 source_path := some source_path,
                 destination_path := some destination_path }, moveTree fs1 sk dk)
            | _, _ =>
              ({ success := false, error := some ("move failed: " ++ source_path) }, fs1)
      else
        ({ success := false, error := some ("Source file not found: " ++ source_path) }, fs)
    else (accessDenied destination_path, fs)
  else (accessDenied source_path, fs)

/-- `FilesystemHandler.copy_file`. -/
def copy_file (cwd : String) (h : Handler) (fs : FS)
    (source_path destination_path : String) : PyResult × FS :=
  if is_path_allowed cwd h source_path then
    if is_path_allowed cwd h destination_path then
      let vs := strSegs (absPath cwd source_path)
      let vd := strSegs (absPath cwd destination_path)
      if existsSegs fs vs then
        if isfileSegs fs vs then
          if existsSegs fs vd then
            ({ success := false,
               error := some ("Destination already exists: " ++ destination_path) }, fs)
          else
            match makedirsSegs fs vd.dropLast with
            | (fs1, false) =>
              ({ success := false, error := some ("File exists: " ++ destination_path) },
               fs1)
            | (fs1, true) =>
              match statSegs fs1 vs, writeTarget fs1 vd with
              | some (Entry.file c), some dk =>
                ({ success := true,
                   message := some ("File copied successfully: " ++ source_path ++
                     " -> " ++ destination_path),
                   source_path := some source_path,
                   destination_path := some destination_path },
                 fsSet fs1 dk (Entry.file c))
              | _, _ =>
                ({ success := false, error := some ("copy failed: " ++ source_path) }, fs1)
        else
          ({ success := false,
             error := some ("Source is not a file: " ++ source_path) }, fs)
      else
        ({ success := false, error := some ("Source file not found: " ++ source_path) }, fs)
    else (accessDenied destination_path, fs)
  else (accessDenied source_path, fs)

/-- `FilesystemHandler.get_allowed_directories` (touches no filesystem
state and cannot fail). -/
def get_allowed_directories (h : Handler) : PyResult :=
  { success := true, allowed_directories := some h.allowed_directories,
    count := some h.allowed_directories.length }

/-- Run `os.makedirs(d, exist_ok=True)` over a list of directories, stopping
at the first failure (`__init__`'s creation loop; a failure there escapes
`__init__` as an exception). -/
def mkDirsAll : FS → List String → FS × Bool
  | fs, [] => (fs, true)
  | fs, d :: rest =>
    match makedirsSegs fs (strSegs d) with
    | (fs1, true) => mkDirsAll fs1 rest
    | (fs1, false) => (fs1, false)

/-- `FilesystemHandler.__init__`: normalize the allow-list (defaults when
`None`) and create every allowed directory on disk. -/
def handlerInit (cwd : String) (dirs : Option (List String)) (fs : FS) :
    Handler × (FS × Bool) :=
  (⟨initDirs cwd dirs⟩, mkDirsAll fs (initDirs cwd dirs))

/-- The shapes of argument maps the dispatcher can expand onto the handler
methods (`**arguments`); mismatched shapes model the `TypeError` the
dispatcher's catch-all turns into a "Function call failed" result. -/
inductive CallArgs where
  | onePath (p : String)
  | pathAndContent (p c : String)
  | pathAndFlag (p : String) (b : Bool)
  | searchArgs (p pat : String) (recursive : Bool)
  | twoPaths (s d : String)
  | noArgs
deriving DecidableEq, Repr

/-- The closed table of function names `handle_function_call` dispatches
on. -/
def functionNames : List String :=
  ["read_file", "write_file", "append_to_file", "list_directory", "create_directory",
   "delete_file", "delete_directory", "search_files", "get_file_info", "move_file",
   "copy_file", "get_allowed_directories"]

/-- The result the dispatcher's catch-all produces when argument expansion
raises `TypeError` (its `str(e)` text is modelled by a stand-in). -/
def typeErrorResult (fname : String) : PyResult :=
  { success := false, error := some ("Function call failed: bad arguments for " ++ fname) }

/-- Invocation of the looked-up handler method with the expanded argument
map. -/
def dispatchCall (cwd : String) (h : Handler) (fs : FS) :
    String → CallArgs → PyResult × FS
  | "read_file", CallArgs.onePath p => read_file cwd h fs p
  | "write_file", CallArgs.pathAndContent p c => write_file cwd h fs p c
  | "append_to_file", CallArgs.pathAndContent p c => append_to_file cwd h fs p c
  | "list_directory", CallArgs.pathAndFlag p b => list_directory cwd h fs p b
  | "create_directory", CallArgs.onePath p => create_directory cwd h fs p
  | "delete_file", CallArgs.onePath p => delete_file cwd h fs p
  | "delete_directory", CallArgs.pathAndFlag p b => delete_directory cwd h fs p b
  | "search_files", CallArgs.searchArgs p pat r => search_files cwd h fs p pat r
  | "get_file_info", CallArgs.onePath p => get_file_info cwd h fs p
  | "move_file", CallArgs.twoPaths s d => move_file cwd h fs s d
  | "copy_file", CallArgs.twoPaths s d => copy_file cwd h fs s d
  | "get_allowed_directories", _ => (get_allowed_directories h, fs)
  | fname, _ => (typeErrorResult fname, fs)

/-- Module-level `handle_function_call`: construct a fresh
`FilesystemHandler()` with the built-in defaults (creating the default
roots on disk), then look the name up and dispatch.  `none` models the
uncaught exception when the constructor's `os.makedirs` fails (that line is
outside the dispatcher's `try`). -/
def handle_function_call (cwd : String) (function_name : String)
    (arguments : CallArgs) (fs : FS) : Option (PyResult × FS) :=
  match handlerInit cwd none fs with
  | (h, (fs1, true)) =>
    if functionNames.contains function_name then
      some (dispatchCall cwd h fs1 function_name arguments)
    else
      some ({ success := false,
              error := some ("Unknown function: " ++ function_name) }, fs1)
  | (_, (_, false)) => none

theorem fsGet_cons (a : RawPath × Entry) (fs : FS) (q : RawPath) :
    fsGet (a :: fs) q = if a.1 = q then some a.2 else fsGet fs q := by
  by_cases h : a.1 = q
  · simp [fsGet, List.find?, h]
  · have hb : (a.1 == q) = false := by simpa using h
    simp [fsGet, List.find?, hb, h]

theorem fsGet_set (fs : FS) (k : RawPath) (v : Entry) (q : RawPath) :
    fsGet (fsSet fs k v) q = if q = k then some v else fsGet fs q := by
  show fsGet ((k, v) :: fs) q = _
  rw [fsGet_cons]
  by_cases h : q = k
  · simp [h]
  · have h2 : ¬ k = q := fun he => h he.symm
    simp [h, h2]

theorem removeTree_cons_kept (e : RawPath × Entry) (fs : FS) (k : RawPath)
    (hu : keyUnder k e.1 = false) :
    fsRemoveTree (e :: fs) k = e :: fsRemoveTree fs k := by
  simp [fsRemoveTree, List.filter_cons, hu]

theorem removeTree_cons_dropped (e : RawPath × Entry) (fs : FS) (k : RawPath)
    (hu : keyUnder k e.1 = true) :
    fsRemoveTree (e :: fs) k = fsRemoveTree fs k := by
  simp [fsRemoveTree, List.filter_cons, hu]

theorem fsGet_removeTree (fs : FS) (k q : RawPath) :
    fsGet (fsRemoveTree fs k) q =
      if keyUnder k q = true then none else fsGet fs q := by
  induction fs with
  | nil => simp [fsGet, fsRemoveTree]
  | cons e fs ih =>
    cases hu : keyUnder k e.1 with
    | false =>
      rw [removeTree_cons_kept e fs k hu, fsGet_cons, fsGet_cons]
      by_cases heq : e.1 = q
      · subst heq
        simp [hu]
      · simp [heq, ih]
    | true =>
      rw [removeTree_cons_dropped e fs k hu, ih, fsGet_cons]
      by_cases heq : e.1 = q
      · subst heq
        simp [hu]
      · simp [heq]

theorem keyUnder_self (k : RawPath) : keyUnder k k = true := by
  simp [keyUnder, List.take_length]

theorem dropLast_append_getLast :
    ∀ (l : List String) (n : String), l.getLast? = some n → l.dropLast ++ [n] = l := by
  intro l
  induction l with
  | nil => intro n h; simp at h
  | cons a t ih =>
    intro n h
    cases t with
    | nil =>
      simp at h
      simp [h]
    | cons b t' =>
      rw [List.getLast?_cons_cons] at h
      have := ih n h
      simp [List.dropLast_cons_of_ne_nil, this]

theorem resolve_mono (fs : FS) :
    ∀ fuel acc segs f' r d, resolveSegsF fs fuel acc segs = some (f', r) →
      resolveSegsF fs (fuel + d) acc segs = some (f' + d, r) := by
  intro fuel
  induction fuel with
  | zero =>
    intro acc segs f' r d h
    cases segs with
    | nil =>
      simp [resolveSegsF] at h ⊢
      obtain ⟨h1, h2⟩ := h
      exact ⟨by omega, h2⟩
    | cons s rest => simp [resolveSegsF] at h
  | succ fuel ih =>
    intro acc segs f' r d h
    cases segs with
    | nil =>
      simp [resolveSegsF] at h ⊢
      obtain ⟨h1, h2⟩ := h
      exact ⟨by omega, h2⟩
    | cons s rest =>
      have heq : fuel + 1 + d = (fuel + d) + 1 := by omega
      rw [heq]
      cases hg : fsGet fs (acc ++ [s]) with
      | none => simp [resolveSegsF, hg] at h
      | some e =>
        cases e with
        | dirE =>
          simp only [resolveSegsF, hg] at h ⊢
          exact ih _ _ _ _ _ h
        | file c =>
          cases rest with
          | nil =>
            simp [resolveSegsF, hg] at h ⊢
            obtain ⟨h1, h2⟩ := h
            exact ⟨by omega, h2⟩
          | cons r1 rs => simp [resolveSegsF, hg] at h
        | symlinkE t =>
          simp only [resolveSegsF, hg] at h ⊢
          exact ih _ _ _ _ _ h

theorem resolve_presv (fs fs2 : FS)
    (hpres : ∀ k e, fsGet fs k = some e → fsGet fs2 k = some e) :
    ∀ fuel acc segs f' r, resolveSegsF fs fuel acc segs = some (f', r) →
      resolveSegsF fs2 fuel acc segs = some (f', r) := by
  intro fuel
  induction fuel with
  | zero =>
    intro acc segs f' r h
    cases segs with
    | nil => simpa [resolveSegsF] using h
    | cons s rest => simp [resolveSegsF] at h
  | succ fuel ih =>
    intro acc segs f' r h
    cases segs with
    | nil => simpa [resolveSegsF] using h
    | cons s rest =>
      cases hg : fsGet fs (acc ++ [s]) with
      | none => simp [resolveSegsF, hg] at h
      | some e =>
        have hg2 : fsGet fs2 (acc ++ [s]) = some e := hpres _ _ hg
        cases e with
        | dirE =>
          simp only [resolveSegsF, hg] at h
          simp only [resolveSegsF, hg2]
          exact ih _ _ _ _ h
        | file c =>
          cases rest with
          | nil =>
            simp only [resolveSegsF, hg] at h
            simp only [resolveSegsF, hg2]
            exact h
          | cons r1 rs => simp [resolveSegsF, hg] at h
        | symlinkE t =>
          simp only [resolveSegsF, hg] at h
          simp only [resolveSegsF, hg2]
          exact ih _ _ _ _ h

theorem resolve_set_file (fs : FS) (tgt : RawPath) (c : String)
    (htgt : fsGet fs tgt = none ∨ ∃ w, fsGet fs tgt = some (Entry.file w)) :
    ∀ fuel acc segs f' r, resolveSegsF fs fuel acc segs = some (f', r) →
      resolveSegsF (fsSet fs tgt (Entry.file c)) fuel acc segs = some (f', r) := by
  intro fuel
  induction fuel with
  | zero =>
    intro acc segs f' r h
    cases segs with
    | nil => simpa [resolveSegsF] using h
    | cons s rest => simp [resolveSegsF] at h
  | succ fuel ih =>
    intro acc segs f' r h
    cases segs with
    | nil => simpa [resolveSegsF] using h
    | cons s rest =>
      by_cases hk : acc ++ [s] = tgt
      · rcases htgt with hnone | ⟨w, hfile⟩
        · have hq : fsGet fs (acc ++ [s]) = none := by rw [hk]; exact hnone
          simp [resolveSegsF, hq] at h
        · have hq : fsGet fs (acc ++ [s]) = some (Entry.file w) := by rw [hk]; exact hfile
          cases rest with
          | nil =>
            simp only [resolveSegsF, hq] at h
            have hq2 : fsGet (fsSet fs tgt (Entry.file c)) (acc ++ [s]) =
                some (Entry.file c) := by
              rw [fsGet_set]
              simp [hk]
            simp only [resolveSegsF, hq2]
            exact h
          | cons r1 rs => simp [resolveSegsF, hq] at h
      · have hsame : fsGet (fsSet fs tgt (Entry.file c)) (acc ++ [s]) =
            fsGet fs (acc ++ [s]) := by
          rw [fsGet_set]
          simp [hk]
        cases hg : fsGet fs (acc ++ [s]) with
        | none => simp [resolveSegsF, hg] at h
        | some e =>
          cases e with
          | dirE =>
            simp only [resolveSegsF, hg] at h
            simp only [resolveSegsF, hsame, hg]
            exact ih _ _ _ _ h
          | file w2 =>
            cases rest with
            | nil =>
              simp only [resolveSegsF, hg] at h
              simp only [resolveSegsF, hsame, hg]
              exact h
            | cons r1 rs => simp [resolveSegsF, hg] at h
          | symlinkE t =>
            simp only [resolveSegsF, hg] at h
            simp only [resolveSegsF, hsame, hg]
            exact ih _ _ _ _ h

theorem resolve_append (fs : FS) :
    ∀ fuel acc xs ys f' r, resolveSegsF fs fuel acc xs = some (f', r) →
      entryAt fs r = some Entry.dirE →
      resolveSegsF fs fuel acc (xs ++ ys) = resolveSegsF fs f' r ys := by
  intro fuel
  induction fuel with
  | zero =>
    intro acc xs ys f' r h hdir
    cases xs with
    | nil =>
      simp only [resolveSegsF, Option.some.injEq, Prod.mk.injEq] at h
      obtain ⟨h1, h2⟩ := h
      subst h1
      subst h2
      simp
    | cons s rest => simp [resolveSegsF] at h
  | succ fuel ih =>
    intro acc xs ys f' r h hdir
    cases xs with
    | nil =>
      simp only [resolveSegsF, Option.some.injEq, Prod.mk.injEq] at h
      obtain ⟨h1, h2⟩ := h
      subst h1
      subst h2
      simp
    | cons s rest =>
      cases hg : fsGet fs (acc ++ [s]) with
      | none => simp [resolveSegsF, hg] at h
      | some e =>
        cases e with
        | dirE =>
          simp only [resolveSegsF, hg] at h
          simp only [List.cons_append, resolveSegsF, hg]
          exact ih _ _ _ _ _ h hdir
        | file c =>
          cases rest with
          | nil =>
            simp only [resolveSegsF, hg, Option.some.injEq, Prod.mk.injEq] at h
            obtain ⟨h1, h2⟩ := h
            subst h2
            have hne : (acc ++ [s]).isEmpty = false := by simp
            simp [entryAt, hne, hg] at hdir
          | cons r1 rs => simp [resolveSegsF, hg] at h
        | symlinkE t =>
          simp only [resolveSegsF, hg] at h
          simp only [List.cons_append, resolveSegsF, hg]
          have happ := ih [] (strSegs t ++ rest) ys f' r h hdir
          rwa [List.append_assoc] at happ

theorem resolve_removeTree (fs : FS) (rp : RawPath) (hrp : rp ≠ []) :
    ∀ fuel acc s rest f', resolveSegsF fs fuel acc (s :: rest) = some (f', rp) →
      resolveSegsF (fsRemoveTree fs rp) fuel acc (s :: rest) = none := by
  intro fuel
  induction fuel with
  | zero =>
    intro acc s rest f' h
    simp [resolveSegsF] at h
  | succ fuel ih =>
    intro acc s rest f' h
    cases hg : fsGet fs (acc ++ [s]) with
    | none => simp [resolveSegsF, hg] at h
    | some e =>
      by_cases hu : keyUnder rp (acc ++ [s]) = true
      · have hq : fsGet (fsRemoveTree fs rp) (acc ++ [s]) = none := by
          rw [fsGet_removeTree]
          simp [hu]
        simp [resolveSegsF, hq]
      · have hsame : fsGet (fsRemoveTree fs rp) (acc ++ [s]) = some e := by
          rw [fsGet_removeTree, if_neg hu, hg]
        cases e with
        | file c =>
          cases rest with
          | nil =>
            simp only [resolveSegsF, hg, Option.some.injEq, Prod.mk.injEq] at h
            obtain ⟨h1, h2⟩ := h
            have : keyUnder rp (acc ++ [s]) = true := by
              rw [h2]
              exact keyUnder_self rp
            exact absurd this hu
          | cons r1 rs => simp [resolveSegsF, hg] at h
        | dirE =>
          cases rest with
          | nil =>
            simp only [resolveSegsF, hg, Option.some.injEq, Prod.mk.injEq] at h
            obtain ⟨h1, h2⟩ := h
            have : keyUnder rp (acc ++ [s]) = true := by
              rw [h2]
              exact keyUnder_self rp
            exact absurd this hu
          | cons r1 rs =>
            simp only [resolveSegsF, hg] at h
            have hrec := ih (acc ++ [s]) r1 rs f' h
            simp only [resolveSegsF, hsame]
            exact hrec
        | symlinkE t =>
          simp only [resolveSegsF, hg] at h
          cases hl : strSegs t ++ rest with
          | nil =>
            rw [hl] at h
            simp only [resolveSegsF, Option.some.injEq, Prod.mk.injEq] at h
            exact absurd h.2.symm hrp
          | cons s2 rest2 =>
            rw [hl] at h
            have hrec := ih [] s2 rest2 f' h
            simp only [resolveSegsF, hsame]
            rw [hl]
            exact hrec

theorem makedirs_of_dir (fs : FS) :
    ∀ fuel acc segs f' r, resolveSegsF fs fuel acc segs = some (f', r) →
      entryAt fs r = some Entry.dirE →
      makedirsGo fuel fs acc segs = (fs, true) := by
  intro fuel
  induction fuel with
  | zero =>
    intro acc segs f' r h hdir
    cases segs with
    | nil => rfl
    | cons s rest => simp [resolveSegsF] at h
  | succ fuel ih =>
    intro acc segs f' r h hdir
    cases segs with
    | nil => rfl
    | cons s rest =>
      cases hg : fsGet fs (acc ++ [s]) with
      | none => simp [resolveSegsF, hg] at h
      | some e =>
        cases e with
        | dirE =>
          simp only [resolveSegsF, hg] at h
          simp only [makedirsGo, hg]
          exact ih _ _ _ _ h hdir
        | file c =>
          cases rest with
          | nil =>
            simp only [resolveSegsF, hg, Option.some.injEq, Prod.mk.injEq] at h
            obtain ⟨h1, h2⟩ := h
            subst h2
            have hne : (acc ++ [s]).isEmpty = false := by simp
            simp [entryAt, hne, hg] at hdir
          | cons r1 rs => simp [resolveSegsF, hg] at h
        | symlinkE t =>
          simp only [resolveSegsF, hg] at h
          simp only [makedirsGo, hg]
          exact ih _ _ _ _ h hdir

theorem makedirs_post :
    ∀ fuel (fs : FS) acc segs fs', entryAt fs acc = some Entry.dirE →
      makedirsGo fuel fs acc segs = (fs', true) →
      (∀ k e, fsGet fs k = some e → fsGet fs' k = some e) ∧
      ∃ f' r, resolveSegsF fs' fuel acc segs = some (f', r) ∧
        entryAt fs' r = some Entry.dirE := by
  intro fuel
  induction fuel with
  | zero =>
    intro fs acc segs fs' hacc h
    cases segs with
    | nil =>
      simp only [makedirsGo, Prod.mk.injEq] at h
      obtain ⟨h1, _⟩ := h
      subst h1
      exact ⟨fun k e hk => hk, 0, acc, by simp [resolveSegsF], hacc⟩
    | cons s rest => simp [makedirsGo] at h
  | succ fuel ih =>
    intro fs acc segs fs' hacc h
    cases segs with
    | nil =>
      simp only [makedirsGo, Prod.mk.injEq] at h
      obtain ⟨h1, _⟩ := h
      subst h1
      exact ⟨fun k e hk => hk, fuel + 1, acc, by simp [resolveSegsF], hacc⟩
    | cons s rest =>
      cases hg : fsGet fs (acc ++ [s]) with
      | some e =>
        cases e with
        | dirE =>
          simp only [makedirsGo, hg] at h
          have hacc2 : entryAt fs (acc ++ [s]) = some Entry.dirE := by
            have hne : (acc ++ [s]).isEmpty = false := by simp
            simp [entryAt, hne, hg]
          obtain ⟨hpres, f', r, hres, hdir⟩ := ih fs (acc ++ [s]) rest fs' hacc2 h
          refine ⟨hpres, f', r, ?_, hdir⟩
          have hg' : fsGet fs' (acc ++ [s]) = some Entry.dirE := hpres _ _ hg
          simp only [resolveSegsF, hg']
          exact hres
        | file c => simp [makedirsGo, hg] at h
        | symlinkE t =>
          simp only [makedirsGo, hg] at h
          have hroot : entryAt fs ([] : RawPath) = some Entry.dirE := by
            simp [entryAt]
          obtain ⟨hpres, f', r, hres, hdir⟩ := ih fs [] (strSegs t ++ rest) fs' hroot h
          refine ⟨hpres, f', r, ?_, hdir⟩
          have hg' : fsGet fs' (acc ++ [s]) = some (Entry.symlinkE t) := hpres _ _ hg
          simp only [resolveSegsF, hg']
          exact hres
      | none =>
        simp only [makedirsGo, hg] at h
        have hacc2 : entryAt (fsSet fs (acc ++ [s]) Entry.dirE) (acc ++ [s]) =
            some Entry.dirE := by
          have hne : (acc ++ [s]).isEmpty = false := by simp
          simp [entryAt, hne, fsGet_set]
        obtain ⟨hpres, f', r, hres, hdir⟩ :=
          ih (fsSet fs (acc ++ [s]) Entry.dirE) (acc ++ [s]) rest fs' hacc2 h
        have hpres0 : ∀ k e, fsGet fs k = some e → fsGet fs' k = some e := by
          intro k e hk
          apply hpres
          rw [fsGet_set]
          have hkne : ¬ k = acc ++ [s] := by
            intro hkk
            rw [hkk, hg] at hk
            exact Option.noConfusion hk
          rw [if_neg hkne]
          exact hk
        refine ⟨hpres0, f', r, ?_, hdir⟩
        have hg1 : fsGet (fsSet fs (acc ++ [s]) Entry.dirE) (acc ++ [s]) =
            some Entry.dirE := by
          rw [fsGet_set, if_pos rfl]
        have hg' : fsGet fs' (acc ++ [s]) = some Entry.dirE := hpres _ _ hg1
        simp only [resolveSegsF, hg']
        exact hres

theorem makedirs_len :
    ∀ fuel (fs : FS) acc segs, fs.length ≤ (makedirsGo fuel fs acc segs).1.length := by
  intro fuel
  induction fuel with
  | zero =>
    intro fs acc segs
    cases segs with
    | nil => simp [makedirsGo]
    | cons s rest => simp [makedirsGo]
  | succ fuel ih =>
    intro fs acc segs
    cases segs with
    | nil => simp [makedirsGo]
    | cons s rest =>
      cases hg : fsGet fs (acc ++ [s]) with
      | some e =>
        cases e with
        | dirE =>
          simp only [makedirsGo, hg]
          exact ih _ _ _
        | file c => simp [makedirsGo, hg]
        | symlinkE t =>
          simp only [makedirsGo, hg]
          exact ih _ _ _
      | none =>
        simp only [makedirsGo, hg]
        calc fs.length ≤ (fsSet fs (acc ++ [s]) Entry.dirE).length := by
              simp [fsSet]
          _ ≤ _ := ih _ _ _


/-- C2: for every gateway operation, a path argument whose canonical form is
outside all allowed roots makes the operation return
`{success:false, error:"Access denied: Path '<original>' is outside allowed
directories"}` carrying the caller's original path string, with the
filesystem state unchanged — validation runs before any existence check or
filesystem effect, and for the two-path operations each argument is
validated in order (source first). -/
theorem c2_access_denied (cwd : String) (h : Handler) (fs : FS)
    (p q c pat : String) (b1 b2 rec : Bool)
    (hp : is_path_allowed cwd h p = false) :
    read_file cwd h fs p = (accessDenied p, fs) ∧
    write_file cwd h fs p c = (accessDenied p, fs) ∧
    append_to_file cwd h fs p c = (accessDenied p, fs) ∧
    list_directory cwd h fs p b1 = (accessDenied p, fs) ∧
    create_directory cwd h fs p = (accessDenied p, fs) ∧
    delete_file cwd h fs p = (accessDenied p, fs) ∧
    delete_directory cwd h fs p b2 = (accessDenied p, fs) ∧
    search_files cwd h fs p pat rec = (accessDenied p, fs) ∧
    get_file_info cwd h fs p = (accessDenied p, fs) ∧
    move_file cwd h fs p q = (accessDenied p, fs) ∧
    copy_file cwd h fs p q = (accessDenied p, fs) ∧
    (is_path_allowed cwd h q = true →
      move_file cwd h fs q p = (accessDenied p, fs) ∧
      copy_file cwd h fs q p = (accessDenied p, fs)) := by
  refine ⟨by simp [read_file, hp], by simp [write_file, hp], by simp [append_to_file, hp],
    by simp [list_directory, hp], by simp [create_directory, hp], by simp [delete_file, hp],
    by simp [delete_directory, hp], by simp [search_files, hp], by simp [get_file_info, hp],
    by simp [move_file, hp], by simp [copy_file, hp], ?_⟩
  intro hq
  exact ⟨by simp [move_file, hq, hp], by simp [copy_file, hq, hp]⟩

/-- C2 witness: reading `/etc/passwd` with allowed root `/ws` is denied with
the exact message and leaves the (empty) filesystem untouched. -/
theorem c2_access_denied_witness :
    read_file "/" ⟨["/ws"]⟩ [] "/etc/passwd" = (accessDenied "/etc/passwd", []) :=
  (c2_access_denied "/" ⟨["/ws"]⟩ [] "/etc/passwd" "/ws/x" "c" "*" false false true
    (by decide)).1

/-- The success/error dichotomy of the operation envelope: an error string
is present exactly when the operation failed. -/
def resultOk (r : PyResult) : Prop :=
  (r.success = true → r.error = none) ∧ (r.success = false → r.error.isSome = true)

/-- C6: every gateway operation is a total function into the structured
result envelope (the model returns a result for every input, so nothing
escapes the gateway as an exception), and in that result the error string is
present exactly when `success` is false: success results carry no error key
and failure results always carry one. -/
theorem c6_result_envelope (cwd : String) (h : Handler) (fs : FS)
    (p q c pat : String) (b1 b2 rec : Bool) :
    resultOk (read_file cwd h fs p).1 ∧
    resultOk (write_file cwd h fs p c).1 ∧
    resultOk (append_to_file cwd h fs p c).1 ∧
    resultOk (list_directory cwd h fs p b1).1 ∧
    resultOk (create_directory cwd h fs p).1 ∧
    resultOk (delete_file cwd h fs p).1 ∧
    resultOk (delete_directory cwd h fs p b2).1 ∧
    resultOk (search_files cwd h fs p pat rec).1 ∧
    resultOk (get_file_info cwd h fs p).1 ∧
    resultOk (move_file cwd h fs p q).1 ∧
    resultOk (copy_file cwd h fs p q).1 ∧
    resultOk (get_allowed_directories h) := by
  refine ⟨?_, ?_, ?_, ?_, ?_, ?_, ?_, ?_, ?_, ?_, ?_, ?_⟩
  · unfold read_file
    split
    · rcases hkey : statSegs fs (strSegs (absPath cwd p)) with _ | e
      · simp [resultOk, hkey]
      · cases e <;> simp [resultOk, hkey]
    · simp [resultOk, accessDenied]
  · unfold write_file
    split
    · rcases hmk : makedirsSegs fs (strSegs (absPath cwd p)).dropLast with ⟨fs1, ok⟩
      cases ok
      · simp [resultOk, hmk]
      · rcases hwt : writeTarget fs1 (strSegs (absPath cwd p)) with _ | tgt
        · simp [resultOk, hmk, hwt]
        · simp [resultOk, hmk, hwt]
    · simp [resultOk, accessDenied]
  · unfold append_to_file
    split
    · rcases hmk : makedirsSegs fs (strSegs (absPath cwd p)).dropLast with ⟨fs1, ok⟩
      cases ok
      · simp [resultOk, hmk]
      · rcases hwt : writeTarget fs1 (strSegs (absPath cwd p)) with _ | tgt
        · simp [resultOk, hmk, hwt]
        · simp [resultOk, hmk, hwt]
    · simp [resultOk, accessDenied]
  · unfold list_directory
    split
    · rcases hkey : statSegs fs (strSegs (absPath cwd p)) with _ | e
      · simp [resultOk, hkey]
      · cases e <;> simp [resultOk, hkey]
    · simp [resultOk, accessDenied]
  · unfold create_directory
    split
    · rcases hmk : makedirsSegs fs (strSegs (absPath cwd p)) with ⟨fs1, ok⟩
      cases ok
      · simp [resultOk, hmk]
      · simp [resultOk, hmk]
    · simp [resultOk, accessDenied]
  · unfold delete_file
    split
    · rcases hkey : statSegs fs (strSegs (absPath cwd p)) with _ | e
      · simp [resultOk, hkey]
      · cases e with
        | file c2 =>
          rcases hl : lstatKey fs (strSegs (absPath cwd p)) with _ | k
          · simp [resultOk, hkey, hl]
          · simp [resultOk, hkey, hl]
        | dirE => simp [resultOk, hkey]
        | symlinkE t => simp [resultOk, hkey]
    · simp [resultOk, accessDenied]
  · unfold delete_directory
    split
    · rcases hkey : statSegs fs (strSegs (absPath cwd p)) with _ | e
      · simp [resultOk, hkey]
      · cases e with
        | dirE =>
          simp only [hkey]
          split
          · simp [resultOk]
          · rcases hrm : rmtreeM fs (strSegs (absPath cwd p)) with ⟨fs2, ok⟩
            cases ok
            · simp [resultOk, hrm]
            · simp [resultOk, hrm]
        | file c2 => simp [resultOk, hkey]
        | symlinkE t => simp [resultOk, hkey]
    · simp [resultOk, accessDenied]
  · unfold search_files
    split
    · rcases hkey : statSegs fs (strSegs (absPath cwd p)) with _ | e
      · simp [resultOk, hkey]
      · cases e <;> simp [resultOk, hkey]
    · simp [resultOk, accessDenied]
  · unfold get_file_info
    split
    · rcases hkey : statSegs fs (strSegs (absPath cwd p)) with _ | e
      · simp [resultOk, hkey]
      · cases e <;> simp [resultOk, hkey]
    · simp [resultOk, accessDenied]
  · unfold move_file
    split
    · split
      · dsimp only
        split
        · split
          · simp [resultOk]
          · rcases hmk : makedirsSegs fs (strSegs (absPath cwd q)).dropLast with ⟨fs1, ok⟩
            cases ok
            · simp [resultOk, hmk]
            · rcases h1 : lstatKey fs1 (strSegs (absPath cwd p)) with _ | sk <;>
                rcases h2 : lstatKey fs1 (strSegs (absPath cwd q)) with _ | dk <;>
                simp [resultOk, hmk, h1, h2]
        · simp [resultOk]
      · simp [resultOk, accessDenied]
    · simp [resultOk, accessDenied]
  · unfold copy_file
    split
    · split
      · dsimp only
        split
        · split
          · split
            · simp [resultOk]
            · rcases hmk : makedirsSegs fs (strSegs (absPath cwd q)).dropLast with ⟨fs1, ok⟩
              cases ok
              · simp [resultOk, hmk]
              · rcases h1 : statSegs fs1 (strSegs (absPath cwd p)) with _ | e <;>
                  rcases h2 : writeTarget fs1 (strSegs (absPath cwd q)) with _ | dk
                · simp [resultOk, hmk, h1, h2]
                · simp [resultOk, hmk, h1, h2]
                · cases e <;> simp [resultOk, hmk, h1, h2]
                · cases e <;> simp [resultOk, hmk, h1, h2]
          · simp [resultOk]
        · simp [resultOk]
      · simp [resultOk, accessDenied]
    · simp [resultOk, accessDenied]
  · simp [resultOk, get_allowed_directories]

/-- C6 witness: the dichotomy instantiated on a denied read — the failure
carries an error string. -/
theorem c6_result_envelope_witness :
    (read_file "/" ⟨["/ws"]⟩ [] "/etc/passwd").1.error.isSome = true :=
  (c6_result_envelope "/" ⟨["/ws"]⟩ [] "/etc/passwd" "/ws/x" "c" "*" false false true).1.2
    (by decide)

/-- Concrete filesystem for the MoveFile/CopyFile destination-collision
scenarios: root `/ws` holding `a.txt` and `b.txt`. -/
def fs4c : FS :=
  [(["ws"], Entry.dirE), (["ws", "a.txt"], Entry.file "x"), (["ws", "b.txt"], Entry.file "y")]

/-- C4 (counterexample): with validated source `/ws/none` (which does not
exist) and validated, existing destination `/ws/a.txt`, `move_file` fails
with the source-not-found message, not the claimed
`"Destination already exists: <destination>"`, so the claim as stated is
false. -/
theorem c4_counterexample :
    is_path_allowed "/" ⟨["/ws"]⟩ "/ws/none" = true ∧
    is_path_allowed "/" ⟨["/ws"]⟩ "/ws/a.txt" = true ∧
    existsSegs fs4c (strSegs (absPath "/" "/ws/a.txt")) = true ∧
    (move_file "/" ⟨["/ws"]⟩ fs4c "/ws/none" "/ws/a.txt").1.error =
      some "Source file not found: /ws/none" ∧
    ¬ (move_file "/" ⟨["/ws"]⟩ fs4c "/ws/none" "/ws/a.txt").1.error =
      some "Destination already exists: /ws/a.txt" := by
  refine ⟨by decide, by decide, by decide, by decide, by decide⟩

/-- C4 (amended): when source and destination are validated and the
destination already exists, MoveFile and CopyFile always return
`success:false` and leave the filesystem (in particular the destination
file's contents) unchanged; the error message is
`"Destination already exists: <destination>"` provided the source passes its
own preceding checks (existence for MoveFile; existence and being a regular
file for CopyFile), and otherwise reports the source problem. -/
theorem c4_no_silent_overwrite (cwd : String) (h : Handler) (fs : FS) (s d : String)
    (hs : is_path_allowed cwd h s = true) (hd : is_path_allowed cwd h d = true)
    (hex : existsSegs fs (strSegs (absPath cwd d)) = true) :
    ((move_file cwd h fs s d).1.success = false ∧ (move_file cwd h fs s d).2 = fs) ∧
    ((copy_file cwd h fs s d).1.success = false ∧ (copy_file cwd h fs s d).2 = fs) ∧
    (existsSegs fs (strSegs (absPath cwd s)) = true →
      move_file cwd h fs s d =
        ({ success := false, error := some ("Destination already exists: " ++ d) }, fs)) ∧
    (isfileSegs fs (strSegs (absPath cwd s)) = true →
      copy_file cwd h fs s d =
        ({ success := false, error := some ("Destination already exists: " ++ d) }, fs)) := by
  have hfile_exists : isfileSegs fs (strSegs (absPath cwd s)) = true →
      existsSegs fs (strSegs (absPath cwd s)) = true := by
    intro hf
    unfold isfileSegs at hf
    unfold existsSegs
    rcases hst : statSegs fs (strSegs (absPath cwd s)) with _ | e
    · rw [hst] at hf
      simp at hf
    · simp
  refine ⟨?_, ?_, ?_, ?_⟩
  · by_cases hsrc : existsSegs fs (strSegs (absPath cwd s)) = true
    · simp [move_file, hs, hd, hsrc, hex]
    · simp [move_file, hs, hd, hsrc, hex]
  · by_cases hsrc : existsSegs fs (strSegs (absPath cwd s)) = true
    · by_cases hsf : isfileSegs fs (strSegs (absPath cwd s)) = true
      · simp [copy_file, hs, hd, hsrc, hsf, hex]
      · simp [copy_file, hs, hd, hsrc, hsf, hex]
    · simp [copy_file, hs, hd, hsrc, hex]
  · intro hsrc
    simp [move_file, hs, hd, hsrc, hex]
  · intro hsf
    simp [copy_file, hs, hd, hfile_exists hsf, hsf, hex]

/-- C4 witness: moving `/ws/b.txt` onto the existing `/ws/a.txt` fails with
the destination-collision message and changes nothing. -/
theorem c4_no_silent_overwrite_witness :
    move_file "/" ⟨["/ws"]⟩ fs4c "/ws/b.txt" "/ws/a.txt" =
      ({ success := false, error := some "Destination already exists: /ws/a.txt" }, fs4c) :=
  (c4_no_silent_overwrite "/" ⟨["/ws"]⟩ fs4c "/ws/b.txt" "/ws/a.txt"
    (by decide) (by decide) (by decide)).2.2.1 (by decide)

theorem resolve_removeTree_of_ne (fs : FS) (rp : RawPath) (hrp : rp ≠ []) (fuel : Nat)
    (acc segs : RawPath) (hne : segs ≠ []) (f' : Nat)
    (h : resolveSegsF fs fuel acc segs = some (f', rp)) :
    resolveSegsF (fsRemoveTree fs rp) fuel acc segs = none := by
  cases segs with
  | nil => exact absurd rfl hne
  | cons s rest => exact resolve_removeTree fs rp hrp fuel acc s rest f' h

/-- C5: for a validated path that resolves to an existing directory (its
parent resolving to `pr.2` and its final entry being a real directory at
`pr.2 ++ [n]`), `delete_directory` with `force=false` on a non-empty
directory fails with the "Directory not empty" (Conflict) error and leaves
the filesystem unchanged, while `force=true` succeeds, removing the
directory and every entry below it, after which the path no longer
exists. -/
theorem c5_delete_directory_guard (cwd : String) (h : Handler) (fs : FS) (p : String)
    (n : String) (f1 : Nat) (r1 : RawPath)
    (hp : is_path_allowed cwd h p = true)
    (hlast : (strSegs (absPath cwd p)).getLast? = some n)
    (hpar : resolveSegsF fs (opFuel fs (strSegs (absPath cwd p))) []
      (strSegs (absPath cwd p)).dropLast = some (f1, r1))
    (hfuel : 0 < f1)
    (hprdir : entryAt fs r1 = some Entry.dirE)
    (hfin : fsGet fs (r1 ++ [n]) = some Entry.dirE) :
    ((childNames fs (strSegs (absPath cwd p))).isEmpty = false →
      delete_directory cwd h fs p false =
        ({ success := false,
           error := some ("Directory not empty: " ++ p ++ ". Use force=True to delete.") },
         fs)) ∧
    delete_directory cwd h fs p true =
      ({ success := true,
         message := some ("Directory deleted successfully: " ++ p),
         directory_path := some p }, fsRemoveTree fs (r1 ++ [n])) ∧
    existsSegs (fsRemoveTree fs (r1 ++ [n])) (strSegs (absPath cwd p)) = false ∧
    (∀ q2, keyUnder (r1 ++ [n]) q2 = true →
      fsGet (fsRemoveTree fs (r1 ++ [n])) q2 = none) := by
  obtain ⟨f2, rfl⟩ : ∃ f2, f1 = f2 + 1 := ⟨f1 - 1, by omega⟩
  have hsegs : (strSegs (absPath cwd p)).dropLast ++ [n] = strSegs (absPath cwd p) :=
    dropLast_append_getLast _ _ hlast
  have happ := resolve_append fs (opFuel fs (strSegs (absPath cwd p))) []
    (strSegs (absPath cwd p)).dropLast [n] (f2 + 1) r1 hpar hprdir
  rw [hsegs] at happ
  have hrhs : resolveSegsF fs (f2 + 1) r1 [n] = some (f2, r1 ++ [n]) := by
    simp [resolveSegsF, hfin]
  have hfull : resolveSegsF fs (opFuel fs (strSegs (absPath cwd p))) []
      (strSegs (absPath cwd p)) = some (f2, r1 ++ [n]) := happ.trans hrhs
  have hne : (r1 ++ [n]).isEmpty = false := by simp
  have hstat : statSegs fs (strSegs (absPath cwd p)) = some Entry.dirE := by
    unfold statSegs
    rw [hfull]
    simp [entryAt, hne, hfin]
  have hlk : lstatKey fs (strSegs (absPath cwd p)) = some (r1 ++ [n]) := by
    simp [lstatKey, hlast, hpar]
  have hrm : rmtreeM fs (strSegs (absPath cwd p)) = (fsRemoveTree fs (r1 ++ [n]), true) := by
    simp [rmtreeM, hlk, hfin]
  have hnn : strSegs (absPath cwd p) ≠ [] := by
    intro he
    rw [he] at hlast
    simp at hlast
  have hgone : resolveSegsF (fsRemoveTree fs (r1 ++ [n]))
      (opFuel fs (strSegs (absPath cwd p))) [] (strSegs (absPath cwd p)) = none :=
    resolve_removeTree_of_ne fs (r1 ++ [n]) (by simp) _ [] _ hnn _ hfull
  have hlen : (fsRemoveTree fs (r1 ++ [n])).length ≤ fs.length :=
    List.length_filter_le _ _
  have hFle : opFuel (fsRemoveTree fs (r1 ++ [n])) (strSegs (absPath cwd p)) ≤
      opFuel fs (strSegs (absPath cwd p)) := by
    unfold opFuel
    omega
  have hgone2 : resolveSegsF (fsRemoveTree fs (r1 ++ [n]))
      (opFuel (fsRemoveTree fs (r1 ++ [n])) (strSegs (absPath cwd p))) []
      (strSegs (absPath cwd p)) = none := by
    rcases hres : resolveSegsF (fsRemoveTree fs (r1 ++ [n]))
        (opFuel (fsRemoveTree fs (r1 ++ [n])) (strSegs (absPath cwd p))) []
        (strSegs (absPath cwd p)) with _ | gr
    · rfl
    · exfalso
      obtain ⟨g, rr⟩ := gr
      have hup := resolve_mono (fsRemoveTree fs (r1 ++ [n]))
        (opFuel (fsRemoveTree fs (r1 ++ [n])) (strSegs (absPath cwd p))) []
        (strSegs (absPath cwd p)) g rr
        (opFuel fs (strSegs (absPath cwd p)) -
          opFuel (fsRemoveTree fs (r1 ++ [n])) (strSegs (absPath cwd p))) hres
      have hFeq : opFuel (fsRemoveTree fs (r1 ++ [n])) (strSegs (absPath cwd p)) +
          (opFuel fs (strSegs (absPath cwd p)) -
            opFuel (fsRemoveTree fs (r1 ++ [n])) (strSegs (absPath cwd p))) =
          opFuel fs (strSegs (absPath cwd p)) := by omega
      rw [hFeq, hgone] at hup
      exact Option.noConfusion hup
  refine ⟨?_, ?_, ?_, ?_⟩
  · intro hnonempty
    simp [delete_directory, hp, hstat, hnonempty]
  · simp [delete_directory, hp, hstat, hrm]
  · unfold existsSegs statSegs
    rw [hgone2]
    rfl
  · intro q2 hq2
    rw [fsGet_removeTree, if_pos hq2]

/-- Concrete filesystem for the DeleteDirectory scenario: `/ws/d` holding
one file. -/
def fs5c : FS :=
  [(["ws"], Entry.dirE), (["ws", "d"], Entry.dirE), (["ws", "d", "f.txt"], Entry.file "y")]

/-- C5 witness: deleting the non-empty `/ws/d` without force fails with the
Conflict error and changes nothing; with force it succeeds and the
directory is gone. -/
theorem c5_delete_directory_guard_witness :
    delete_directory "/" ⟨["/ws"]⟩ fs5c "/ws/d" false =
      ({ success := false,
         error := some "Directory not empty: /ws/d. Use force=True to delete." }, fs5c) ∧
    delete_directory "/" ⟨["/ws"]⟩ fs5c "/ws/d" true =
      ({ success := true, message := some "Directory deleted successfully: /ws/d",
         directory_path := some "/ws/d" }, fsRemoveTree fs5c ["ws", "d"]) ∧
    existsSegs (fsRemoveTree fs5c ["ws", "d"]) (strSegs (absPath "/" "/ws/d")) = false := by
  have H := c5_delete_directory_guard "/" ⟨["/ws"]⟩ fs5c "/ws/d" "d" 162 ["ws"]
    (by decide) (by decide) (by decide) (by decide) (by decide) (by decide)
  exact ⟨H.1 (by decide), H.2.1, H.2.2.1⟩

/-- C9: when a `create_directory` call succeeds, calling it again on the
same path succeeds as well and performs no action at all — the second call
returns the state it was given unchanged; more generally any later call on
a state where the path is still a directory (for instance after the
directory acquired contents in between) succeeds and leaves that state,
contents included, untouched. -/
theorem c9_create_directory_idempotent (cwd : String) (h : Handler) (fs : FS) (p : String)
    (hok : (create_directory cwd h fs p).1.success = true) :
    create_directory cwd h (create_directory cwd h fs p).2 p =
      ({ success := true,
         message := some ("Directory created successfully: " ++ p),
         directory_path := some p }, (create_directory cwd h fs p).2) ∧
    (∀ fs2 : FS, statSegs fs2 (strSegs (absPath cwd p)) = some Entry.dirE →
      create_directory cwd h fs2 p =
        ({ success := true,
           message := some ("Directory created successfully: " ++ p),
           directory_path := some p }, fs2)) := by
  by_cases hp : is_path_allowed cwd h p = true
  · have part2 : ∀ fs2 : FS, statSegs fs2 (strSegs (absPath cwd p)) = some Entry.dirE →
        create_directory cwd h fs2 p =
          ({ success := true,
             message := some ("Directory created successfully: " ++ p),
             directory_path := some p }, fs2) := by
      intro fs2 hst
      unfold statSegs at hst
      rcases hres : resolveSegsF fs2 (opFuel fs2 (strSegs (absPath cwd p))) []
          (strSegs (absPath cwd p)) with _ | gr
      · rw [hres] at hst
        simp at hst
      · obtain ⟨g, rr⟩ := gr
        rw [hres] at hst
        simp only [Option.bind] at hst
        have hmk2 := makedirs_of_dir fs2 (opFuel fs2 (strSegs (absPath cwd p))) []
          (strSegs (absPath cwd p)) g rr hres hst
        simp [create_directory, hp, makedirsSegs, hmk2]
    rcases hmk : makedirsSegs fs (strSegs (absPath cwd p)) with ⟨fs1, ok⟩
    cases ok
    · exfalso
      simp [create_directory, hp, hmk] at hok
    · unfold makedirsSegs at hmk
      have hpost := makedirs_post (opFuel fs (strSegs (absPath cwd p))) fs []
        (strSegs (absPath cwd p)) fs1 (by simp [entryAt]) hmk
      obtain ⟨hpres, f', r, hres1, hdir1⟩ := hpost
      have hlen : fs.length ≤ fs1.length := by
        have hl := makedirs_len (opFuel fs (strSegs (absPath cwd p))) fs []
          (strSegs (absPath cwd p))
        rw [hmk] at hl
        exact hl
      have hd : opFuel fs (strSegs (absPath cwd p)) +
          (opFuel fs1 (strSegs (absPath cwd p)) - opFuel fs (strSegs (absPath cwd p))) =
          opFuel fs1 (strSegs (absPath cwd p)) := by
        unfold opFuel
        omega
      have hres2 := resolve_mono fs1 (opFuel fs (strSegs (absPath cwd p))) []
        (strSegs (absPath cwd p)) f' r
        (opFuel fs1 (strSegs (absPath cwd p)) - opFuel fs (strSegs (absPath cwd p))) hres1
      rw [hd] at hres2
      have hstat1 : statSegs fs1 (strSegs (absPath cwd p)) = some Entry.dirE := by
        unfold statSegs
        rw [hres2]
        simpa using hdir1
      have hc : create_directory cwd h fs p =
          ({ success := true,
             message := some ("Directory created successfully: " ++ p),
             directory_path := some p }, fs1) := by
        simp [create_directory, hp, makedirsSegs, hmk]
      rw [hc]
      exact ⟨part2 fs1 hstat1, part2⟩
  · exfalso
    simp [create_directory, hp, accessDenied] at hok

/-- C9 witness: creating `/ws/new` twice — the second call succeeds and
returns the intermediate state unchanged. -/
theorem c9_create_directory_idempotent_witness :
    create_directory "/" ⟨["/ws"]⟩
        (create_directory "/" ⟨["/ws"]⟩ [(["ws"], Entry.dirE)] "/ws/new").2 "/ws/new" =
      ({ success := true,
         message := some "Directory created successfully: /ws/new",
         directory_path := some "/ws/new" },
       (create_directory "/" ⟨["/ws"]⟩ [(["ws"], Entry.dirE)] "/ws/new").2) :=
  (c9_create_directory_idempotent "/" ⟨["/ws"]⟩ [(["ws"], Entry.dirE)] "/ws/new"
    (by decide)).1

theorem fsSet_length (fs : FS) (k : RawPath) (v : Entry) :
    (fsSet fs k v).length = fs.length + 1 := by
  simp [fsSet]

theorem opFuel_set (fs : FS) (k : RawPath) (v : Entry) (segs : RawPath) :
    opFuel (fsSet fs k v) segs = opFuel fs segs + 40 := by
  unfold opFuel
  rw [fsSet_length]
  omega

/-- C8: whenever `write_file p c` succeeds and its reported size equals the
byte size of `c`, a subsequent `read_file p` on the resulting state succeeds
with content exactly `c` and the same size, leaving the state unchanged. -/
theorem c8_write_read_roundtrip (cwd : String) (h : Handler) (fs : FS) (p c : String)
    (hok : (write_file cwd h fs p c).1.success = true)
    (hsize : (write_file cwd h fs p c).1.size = some c.utf8ByteSize) :
    read_file cwd h (write_file cwd h fs p c).2 p =
      ({ success := true, content := some c, file_path := some p,
         size := some c.utf8ByteSize }, (write_file cwd h fs p c).2) := by
  by_cases hp : is_path_allowed cwd h p = true
  · rcases hmk : makedirsSegs fs (strSegs (absPath cwd p)).dropLast with ⟨fs1, ok⟩
    cases ok
    · exfalso
      simp [write_file, hp, hmk] at hok
    · rcases hwt : writeTarget fs1 (strSegs (absPath cwd p)) with _ | tgt
      · exfalso
        simp [write_file, hp, hmk, hwt] at hok
      · have hw : write_file cwd h fs p c =
            ({ success := true, message := some ("File written successfully: " ++ p),
               file_path := some p, size := some c.length },
             fsSet fs1 tgt (Entry.file c)) := by
          simp [write_file, hp, hmk, hwt]
        rw [hw] at hsize ⊢
        simp only [Option.some.injEq] at hsize
        -- dissect the write target
        unfold writeTarget at hwt
        rcases hlast : (strSegs (absPath cwd p)).getLast? with _ | n
        · rw [hlast] at hwt
          exact absurd hwt (by simp)
        · rw [hlast] at hwt
          dsimp only at hwt
          have hsegs : (strSegs (absPath cwd p)).dropLast ++ [n] = strSegs (absPath cwd p) :=
            dropLast_append_getLast _ _ hlast
          have hstat' : statSegs (fsSet fs1 tgt (Entry.file c)) (strSegs (absPath cwd p)) =
              some (Entry.file c) := by
            rcases hfull : resolveSegsF fs1 (opFuel fs1 (strSegs (absPath cwd p))) []
                (strSegs (absPath cwd p)) with _ | fr
            · -- creation of a fresh file under a resolved parent directory
              rw [hfull] at hwt
              dsimp only at hwt
              rcases hpar : resolveSegsF fs1 (opFuel fs1 (strSegs (absPath cwd p))) []
                  (strSegs (absPath cwd p)).dropLast with _ | pr
              · rw [hpar] at hwt
                exact absurd hwt (by simp)
              · rw [hpar] at hwt
                obtain ⟨pf, rpar⟩ := pr
                dsimp only at hwt
                cases hcond : (entryAt fs1 rpar == some Entry.dirE) with
                | false =>
                  rw [hcond] at hwt
                  exact absurd hwt (by simp)
                | true =>
                  rw [hcond] at hwt
                  simp only [if_true] at hwt
                  have hdir' : entryAt fs1 rpar = some Entry.dirE := by
                    have hc2 := hcond
                    simp at hc2
                    exact hc2
                  rcases hold : fsGet fs1 (rpar ++ [n]) with _ | e
                  · rw [hold] at hwt
                    simp only [Option.some.injEq] at hwt
                    subst hwt
                    -- tgt = rpar ++ [n], fresh
                    have hstep1 := resolve_set_file fs1 (rpar ++ [n]) c (Or.inl hold)
                      (opFuel fs1 (strSegs (absPath cwd p))) []
                      (strSegs (absPath cwd p)).dropLast pf rpar hpar
                    have hstep1' := resolve_mono _ _ _ _ _ _ 40 hstep1
                    rw [← opFuel_set fs1 (rpar ++ [n]) (Entry.file c)
                      (strSegs (absPath cwd p))] at hstep1'
                    have hne_rt : ¬ rpar = rpar ++ [n] := by simp
                    have hdirfs' : entryAt (fsSet fs1 (rpar ++ [n]) (Entry.file c)) rpar =
                        some Entry.dirE := by
                      unfold entryAt at hdir' ⊢
                      by_cases hre : rpar.isEmpty
                      · simp [hre]
                      · simp only [hre, if_false] at hdir' ⊢
                        rw [fsGet_set, if_neg hne_rt]
                        exact hdir'
                    have hstep2 := resolve_append (fsSet fs1 (rpar ++ [n]) (Entry.file c))
                      (opFuel (fsSet fs1 (rpar ++ [n]) (Entry.file c))
                        (strSegs (absPath cwd p))) []
                      (strSegs (absPath cwd p)).dropLast [n] (pf + 40) rpar hstep1' hdirfs'
                    rw [hsegs] at hstep2
                    have hget' : fsGet (fsSet fs1 (rpar ++ [n]) (Entry.file c)) (rpar ++ [n]) =
                        some (Entry.file c) := by
                      rw [fsGet_set, if_pos rfl]
                    have hstep3 : resolveSegsF (fsSet fs1 (rpar ++ [n]) (Entry.file c))
                        (pf + 40) rpar [n] = some (pf + 39, rpar ++ [n]) := by
                      have h40 : pf + 40 = (pf + 39) + 1 := by omega
                      rw [h40]
                      simp [resolveSegsF, hget']
                    unfold statSegs
                    rw [hstep2, hstep3]
                    have hne2 : (rpar ++ [n]).isEmpty = false := by simp
                    simp [entryAt, hne2, hget']
                  · rw [hold] at hwt
                    exact absurd hwt (by simp)
            · -- overwrite of an existing regular file at its resolved location
              rw [hfull] at hwt
              obtain ⟨ff, rr⟩ := fr
              dsimp only at hwt
              rcases hent : entryAt fs1 rr with _ | e
              · rw [hent] at hwt
                exact absurd hwt (by simp)
              · rw [hent] at hwt
                cases e with
                | file w =>
                  dsimp only at hwt
                  simp only [Option.some.injEq] at hwt
                  subst hwt
                  have hrr_ne : rr.isEmpty = false := by
                    cases hre : rr.isEmpty
                    · rfl
                    · exfalso
                      unfold entryAt at hent
                      rw [if_pos hre] at hent
                      simp at hent
                  have hget1 : fsGet fs1 rr = some (Entry.file w) := by
                    unfold entryAt at hent
                    rw [hrr_ne] at hent
                    simpa using hent
                  have hstep1 := resolve_set_file fs1 rr c (Or.inr ⟨w, hget1⟩)
                    (opFuel fs1 (strSegs (absPath cwd p))) []
                    (strSegs (absPath cwd p)) ff rr hfull
                  have hstep1' := resolve_mono _ _ _ _ _ _ 40 hstep1
                  rw [← opFuel_set fs1 rr (Entry.file c) (strSegs (absPath cwd p))] at hstep1'
                  unfold statSegs
                  rw [hstep1']
                  have hget' : fsGet (fsSet fs1 rr (Entry.file c)) rr =
                      some (Entry.file c) := by
                    rw [fsGet_set, if_pos rfl]
                  simp [entryAt, hrr_ne, hget']
                  intro he
                  rw [he] at hrr_ne
                  simp at hrr_ne
                | dirE => exact absurd hwt (by simp)
                | symlinkE t => exact absurd hwt (by simp)
          rw [read_file]
          simp only [hp, if_true, hstat']
          rw [hsize]
  · exfalso
    simp [write_file, hp, accessDenied] at hok

/-- C8 witness: writing `"hi"` to `/ws/a.txt` reports size 2 and reading it
back yields content `"hi"` with size 2. -/
theorem c8_write_read_roundtrip_witness :
    read_file "/" ⟨["/ws"]⟩
        (write_file "/" ⟨["/ws"]⟩ [(["ws"], Entry.dirE)] "/ws/a.txt" "hi").2 "/ws/a.txt" =
      ({ success := true, content := some "hi", file_path := some "/ws/a.txt",
         size := some 2 },
       (write_file "/" ⟨["/ws"]⟩ [(["ws"], Entry.dirE)] "/ws/a.txt" "hi").2) :=
  c8_write_read_roundtrip "/" ⟨["/ws"]⟩ [(["ws"], Entry.dirE)] "/ws/a.txt" "hi"
    (by decide) (by decide)

/-- Concrete filesystem for the SearchFiles symlink scenario: `/ws`
contains a symbolic link `link` to `/secret`, which holds `a.txt` outside
every allowed root. -/
def fs3c : FS :=
  [(["ws"], Entry.dirE), (["ws", "link"], Entry.symlinkE "/secret"),
   (["secret"], Entry.dirE), (["secret", "a.txt"], Entry.file "x")]

/-- C3 (counterexample): a recursive search of `/ws` for `*.txt` reports the
match `/ws/link/a.txt`, whose canonical location after resolving the
symlinked subtree is `/secret/a.txt` — outside every allowed root and not
segment-contained under `/ws` — so matches escaping via symlinks are NOT
dropped and the claim as stated is false. -/
theorem c3_counterexample :
    ({ path := "/ws/link/a.txt", name := "a.txt", type := "file" } : ItemInfo) ∈
      ((search_files "/" ⟨["/ws"]⟩ fs3c "/ws" "*.txt" true).1.«matches».getD []) ∧
    realOf fs3c (strSegs "/ws/link/a.txt") = some ["secret", "a.txt"] ∧
    specSegmentContained "/" ["/ws"] (segsToStr ["secret", "a.txt"]) = false ∧
    is_path_allowed "/" ⟨["/ws"]⟩ (segsToStr ["secret", "a.txt"]) = false := by
  refine ⟨by decide, by decide, by decide, by decide⟩

/-- C3 (amended): `search_files` is read-only and every match it reports
passes `_is_path_allowed` — i.e. the match's textual path, canonicalized by
`abspath` without resolving symbolic links, has an allowed root as a string
prefix; raw glob hits failing that check are silently dropped while the
search still succeeds on a validated existing directory.  Because the check
does not resolve symlinks, a match reached through a symlinked subtree whose
textual path lies under a root is reported even when its real location is
outside every root. -/
theorem c3_search_matches_validated (cwd : String) (h : Handler) (fs : FS)
    (sp pat : String) (rec : Bool) :
    (search_files cwd h fs sp pat rec).2 = fs ∧
    (∀ it : ItemInfo, it ∈ ((search_files cwd h fs sp pat rec).1.«matches».getD []) →
      is_path_allowed cwd h it.path = true) ∧
    (is_path_allowed cwd h sp = true →
      statSegs fs (strSegs (absPath cwd sp)) = some Entry.dirE →
      (search_files cwd h fs sp pat rec).1.success = true) := by
  by_cases hp : is_path_allowed cwd h sp = true
  · rcases hst : statSegs fs (strSegs (absPath cwd sp)) with _ | e
    · refine ⟨by simp [search_files, hp, hst], ?_, ?_⟩
      · intro it hit
        simp [search_files, hp, hst] at hit
      · intro _ hst2
        exact absurd hst2 (by simp)
    · cases e with
      | dirE =>
        refine ⟨by simp [search_files, hp, hst], ?_, ?_⟩
        · intro it hit
          simp only [search_files, hp, hst, if_true] at hit
          simp only [Option.getD_some, List.mem_map, List.mem_filter] at hit
          obtain ⟨m, ⟨hmem, hallow⟩, heq⟩ := hit
          rw [← heq]
          exact hallow
        · intro _ _
          simp [search_files, hp, hst]
      | file c2 =>
        refine ⟨by simp [search_files, hp, hst], ?_, ?_⟩
        · intro it hit
          simp [search_files, hp, hst] at hit
        · intro _ hst2
          exact absurd hst2 (by simp)
      | symlinkE t =>
        refine ⟨by simp [search_files, hp, hst], ?_, ?_⟩
        · intro it hit
          simp [search_files, hp, hst] at hit
        · intro _ hst2
          exact absurd hst2 (by simp)
  · refine ⟨by simp [search_files, hp], ?_, ?_⟩
    · intro it hit
      simp [search_files, hp, accessDenied] at hit
    · intro hp2 _
      exact absurd hp2 hp

/-- C3 witness: the amended theorem applied to the symlink scenario — the
reported match `/ws/link/a.txt` does pass the textual containment check. -/
theorem c3_search_matches_validated_witness :
    is_path_allowed "/" ⟨["/ws"]⟩ "/ws/link/a.txt" = true :=
  (c3_search_matches_validated "/" ⟨["/ws"]⟩ fs3c "/ws" "*.txt" true).2.1
    { path := "/ws/link/a.txt", name := "a.txt", type := "file" } (by decide)

theorem mkDirsAll_post :
    ∀ (ds : List String) (fs fs' : FS), mkDirsAll fs ds = (fs', true) →
      (∀ k e, fsGet fs k = some e → fsGet fs' k = some e) ∧
      fs.length ≤ fs'.length ∧
      ∀ d ∈ ds, statSegs fs' (strSegs d) = some Entry.dirE := by
  intro ds
  induction ds with
  | nil =>
    intro fs fs' h
    simp only [mkDirsAll, Prod.mk.injEq] at h
    obtain ⟨h1, _⟩ := h
    subst h1
    exact ⟨fun k e hk => hk, le_refl _, by simp⟩
  | cons d rest ih =>
    intro fs fs' h
    unfold mkDirsAll at h
    rcases hmk : makedirsSegs fs (strSegs d) with ⟨fsa, ok⟩
    rw [hmk] at h
    cases ok
    · simp at h
    · unfold makedirsSegs at hmk
      have hpost := makedirs_post (opFuel fs (strSegs d)) fs [] (strSegs d) fsa
        (by simp [entryAt]) hmk
      obtain ⟨hpresa, f', r, hresa, hdira⟩ := hpost
      obtain ⟨hpresb, hlenb, hrest⟩ := ih fsa fs' h
      have hlena : fs.length ≤ fsa.length := by
        have hl := makedirs_len (opFuel fs (strSegs d)) fs [] (strSegs d)
        rw [hmk] at hl
        exact hl
      refine ⟨fun k e hk => hpresb _ _ (hpresa _ _ hk), le_trans hlena hlenb, ?_⟩
      intro d2 hd2
      rcases List.mem_cons.mp hd2 with rfl | hmem
      · have hres_fs' := resolve_presv fsa fs' hpresb _ _ _ _ _ hresa
        have hdle : opFuel fs (strSegs d2) ≤ opFuel fs' (strSegs d2) := by
          unfold opFuel
          have : fs.length ≤ fs'.length := le_trans hlena hlenb
          omega
        have hmono := resolve_mono fs' (opFuel fs (strSegs d2)) [] (strSegs d2) f' r
          (opFuel fs' (strSegs d2) - opFuel fs (strSegs d2)) hres_fs'
        have hfeq : opFuel fs (strSegs d2) +
            (opFuel fs' (strSegs d2) - opFuel fs (strSegs d2)) =
            opFuel fs' (strSegs d2) := by omega
        rw [hfeq] at hmono
        have hdir' : entryAt fs' r = some Entry.dirE := by
          unfold entryAt at hdira ⊢
          cases hre : r.isEmpty
          · rw [hre] at hdira
            simp only [Bool.false_eq_true, if_false] at hdira ⊢
            exact hpresb _ _ hdira
          · simp
        unfold statSegs
        rw [hmono]
        simpa using hdir'
      · exact hrest d2 hmem

/-- C7 (counterexample): calling the dispatcher with the unknown name
`frobnicate` on an empty filesystem returns the unknown-function error but
does NOT leave the filesystem untouched — constructing the gateway first
creates the default allowed directories on disk, so "no filesystem action
is performed" is false. -/
theorem c7_counterexample :
    (handle_function_call "/" "frobnicate" CallArgs.noArgs []).map (fun r => r.1) =
      some { success := false, error := some "Unknown function: frobnicate" } ∧
    ¬ (handle_function_call "/" "frobnicate" CallArgs.noArgs []).map (fun r => r.2) =
      some ([] : FS) := by
  refine ⟨by decide, by decide⟩

/-- C7 (amended): for every function name outside the closed operation
table, the dispatcher returns `{success:false, error:"Unknown function:
<name>"}` without invoking any gateway operation — the returned state is
exactly the post-construction state, untouched by any operation — but the
gateway itself is constructed first, which creates the built-in default
allowed directories on disk before the name lookup runs. -/
theorem c7_unknown_function (cwd fname : String) (args : CallArgs) (fs : FS)
    (hh : Handler) (fs1 : FS)
    (hinit : handlerInit cwd none fs = (hh, (fs1, true)))
    (hunk : functionNames.contains fname = false) :
    handle_function_call cwd fname args fs =
      some ({ success := false, error := some ("Unknown function: " ++ fname) }, fs1) := by
  unfold handle_function_call
  rw [hinit]
  dsimp only
  split
  · rename_i hcond
    rw [hunk] at hcond
    exact absurd hcond (by simp)
  · rfl

/-- C7 witness: the amended theorem at the unknown name `frobnicate` on the
empty filesystem. -/
theorem c7_unknown_function_witness :
    handle_function_call "/" "frobnicate" CallArgs.noArgs [] =
      some ({ success := false, error := some "Unknown function: frobnicate" },
        (mkDirsAll [] (initDirs "/" none)).1) :=
  c7_unknown_function "/" "frobnicate" CallArgs.noArgs [] ⟨initDirs "/" none⟩
    (mkDirsAll [] (initDirs "/" none)).1 (by decide) (by decide)

/-- C10: every invocation of `handle_function_call` — whatever the function
name, known or unknown — constructs a fresh gateway wired to the built-in
default allow-list (the dispatcher takes no gateway argument, so any
externally configured instance is ignored), and as a side effect of that
construction the default roots are created on disk before the name lookup:
whenever the call returns at all, the construction's directory-creation
succeeded, every default root is a directory in the post-construction
state, and for an unknown name the final state is exactly that state. -/
theorem c10_dispatcher_constructs_defaults (cwd fname : String) (args : CallArgs)
    (fs : FS) (out : PyResult) (fs2 : FS)
    (hcall : handle_function_call cwd fname args fs = some (out, fs2)) :
    (mkDirsAll fs (initDirs cwd none)).2 = true ∧
    (∀ d ∈ initDirs cwd none,
      statSegs (mkDirsAll fs (initDirs cwd none)).1 (strSegs d) = some Entry.dirE) ∧
    (functionNames.contains fname = false →
      fs2 = (mkDirsAll fs (initDirs cwd none)).1 ∧
      out = { success := false, error := some ("Unknown function: " ++ fname) }) := by
  unfold handle_function_call at hcall
  rcases hinit : handlerInit cwd none fs with ⟨hh, fs1, okb⟩
  rw [hinit] at hcall
  have hfs1 : mkDirsAll fs (initDirs cwd none) = (fs1, okb) := by
    have h2 := congrArg Prod.snd hinit
    simpa [handlerInit] using h2
  cases okb
  · simp at hcall
  · refine ⟨by rw [hfs1], ?_, ?_⟩
    · intro d hd
      rw [hfs1]
      exact (mkDirsAll_post (initDirs cwd none) fs fs1 hfs1).2.2 d hd
    · intro hunk
      rw [hunk] at hcall
      simp only [Bool.false_eq_true, if_false, Option.some.injEq, Prod.mk.injEq] at hcall
      obtain ⟨hout, hfs2⟩ := hcall
      rw [hfs1]
      exact ⟨hfs2.symm, hout.symm⟩

/-- C10 witness: a dispatcher call with an unknown name on the empty
filesystem — the default roots exist as directories afterwards and the
returned state is the post-construction state. -/
theorem c10_dispatcher_constructs_defaults_witness :
    (mkDirsAll ([] : FS) (initDirs "/" none)).2 = true ∧
    statSegs (mkDirsAll ([] : FS) (initDirs "/" none)).1
      (strSegs "/Users/admin/Documents/test_workspace") = some Entry.dirE := by
  have H := c10_dispatcher_constructs_defaults "/" "frobnicate" CallArgs.noArgs []
    { success := false, error := some "Unknown function: frobnicate" }
    (mkDirsAll ([] : FS) (initDirs "/" none)).1 (by decide)
  exact ⟨H.1, H.2.1 "/Users/admin/Documents/test_workspace" (by decide)⟩
